import Mathlib

/-!
Verification development for the grid-composer table builder
(`src/grid-composer`): a shallow embedding of the table document model
(`lib/types/table.ts`), the Grid Editor structural mutations
(`components/table-forge/table-builder.tsx`), the cell format toolbar
(`components/table-forge/cell-format-toolbar.tsx`), and the host sync
save handler (`components/table-forge/table-forge.tsx`), together with
theorems about the documented invariants and behaviours.
-/

namespace GridComposer

/-! ## Untyped JSON values

`JSON.parse` yields an untyped JavaScript value; `validateTableData`
inspects such values field by field. We model them as a `Json` tree.
Numbers are modelled as integers (no claim depends on fractional
values); object fields are an association list looked up by first
match (objects produced by the code have distinct keys). -/

inductive Json where
  | null : Json
  | bool : Bool → Json
  | num : Int → Json
  | str : String → Json
  | arr : List Json → Json
  | obj : List (String × Json) → Json

/-- JavaScript property access `v[k]`, returning `none` for an absent
property (JS `undefined`). This total function is exact for object,
array and primitive bases (primitives auto-box and yield `undefined`);
on a `null` base JavaScript instead throws a `TypeError`, which this
total model cannot express. `validateTableData` does reach such an
access when an element of `rows`, of a row's `cells`, or of `columns`
is `null`, so the throwing behaviour is modelled separately by
`validateTableDataE`, and `validateTableDataE_eq_of_no_null` proves
the total model exact on trees with no null array elements. -/
def Json.getField : Json → String → Option Json
  | .obj fields, k => fields.lookup k
  | _, _ => none

/-- Whether a JSON value is the literal `null`. -/
def Json.isNull : Json → Bool
  | .null => true
  | _ => false

/-- JavaScript truthiness of a possibly-undefined value (`none` is
`undefined`, which is falsy). -/
def jsTruthy : Option Json → Bool
  | none => false
  | some .null => false
  | some (.bool b) => b
  | some (.num n) => decide (n ≠ 0)
  | some (.str s) => decide (s ≠ "")
  | some (.arr _) => true
  | some (.obj _) => true

/-- JavaScript `typeof v === 'object'` (true for `null`, arrays and
plain objects). -/
def jsTypeofObject : Json → Bool
  | .null => true
  | .arr _ => true
  | .obj _ => true
  | _ => false

/-- JavaScript `Array.isArray`. -/
def jsIsArray : Option Json → Option (List Json)
  | some (.arr l) => some l
  | _ => none

/-! ## Typed document model (`lib/types/table.ts`)

The TypeScript interfaces, with optional fields as `Option`. The string
literal unions become inductives. -/

inductive CellAlignment where
  | left | center | right
deriving DecidableEq, Repr

inductive CellVerticalAlignment where
  | top | middle | bottom
deriving DecidableEq, Repr

inductive FontWeight where
  | normal | medium | semibold | bold
deriving DecidableEq, Repr

def CellAlignment.toKey : CellAlignment → String
  | .left => "left"
  | .center => "center"
  | .right => "right"

def CellVerticalAlignment.toKey : CellVerticalAlignment → String
  | .top => "top"
  | .middle => "middle"
  | .bottom => "bottom"

def FontWeight.toKey : FontWeight → String
  | .normal => "normal"
  | .medium => "medium"
  | .semibold => "semibold"
  | .bold => "bold"

structure CellFormat where
  align : Option CellAlignment := none
  verticalAlign : Option CellVerticalAlignment := none
  fontWeight : Option FontWeight := none
  color : Option String := none
  backgroundColor : Option String := none
  wrap : Option Bool := none
deriving DecidableEq, Repr

structure TableCell where
  content : String
  format : Option CellFormat := none
  id : String
deriving DecidableEq, Repr

structure TableRow where
  cells : List TableCell
  id : String
  isHeader : Option Bool := none
deriving DecidableEq, Repr

structure TableColumn where
  id : String
  label : Option String := none
  width : Option String := none
deriving DecidableEq, Repr

structure TableSettings where
  hasHeaderRow : Option Bool := none
  defaultCellFormat : Option CellFormat := none
  caption : Option String := none
  hasBorders : Option Bool := none
  isStriped : Option Bool := none
deriving DecidableEq, Repr

structure TableMetadata where
  created : Option String := none
  modified : Option String := none
  createdBy : Option String := none
  modifiedBy : Option String := none
deriving DecidableEq, Repr

structure TableData where
  version : String
  rows : List TableRow
  columns : List TableColumn
  settings : Option TableSettings := none
  metadata : Option TableMetadata := none
deriving DecidableEq, Repr

/-! ## Encoding typed documents as JSON values

A TypeScript `TableData` value at runtime *is* the JSON tree; a field
holding `undefined` is dropped by `JSON.stringify`, so an `Option` field
that is `none` is simply omitted from the object. -/

/-- Helper: emit a field only when the value is present. -/
def optField (k : String) : Option Json → List (String × Json)
  | none => []
  | some v => [(k, v)]

def encodeCellFormat (f : CellFormat) : Json :=
  .obj (optField "align" (f.align.map (fun a => .str a.toKey)) ++
    optField "verticalAlign" (f.verticalAlign.map (fun a => .str a.toKey)) ++
    optField "fontWeight" (f.fontWeight.map (fun a => .str a.toKey)) ++
    optField "color" (f.color.map Json.str) ++
    optField "backgroundColor" (f.backgroundColor.map Json.str) ++
    optField "wrap" (f.wrap.map Json.bool))

def encodeTableCell (c : TableCell) : Json :=
  .obj ([("content", Json.str c.content)] ++
    optField "format" (c.format.map encodeCellFormat) ++
    [("id", Json.str c.id)])

def encodeTableRow (r : TableRow) : Json :=
  .obj ([("cells", Json.arr (r.cells.map encodeTableCell)),
    ("id", Json.str r.id)] ++
    optField "isHeader" (r.isHeader.map Json.bool))

def encodeTableColumn (c : TableColumn) : Json :=
  .obj ([("id", Json.str c.id)] ++
    optField "label" (c.label.map Json.str) ++
    optField "width" (c.width.map Json.str))

def encodeTableSettings (s : TableSettings) : Json :=
  .obj (optField "hasHeaderRow" (s.hasHeaderRow.map Json.bool) ++
    optField "defaultCellFormat" (s.defaultCellFormat.map encodeCellFormat) ++
    optField "caption" (s.caption.map Json.str) ++
    optField "hasBorders" (s.hasBorders.map Json.bool) ++
    optField "isStriped" (s.isStriped.map Json.bool))

def encodeTableMetadata (m : TableMetadata) : Json :=
  .obj (optField "created" (m.created.map Json.str) ++
    optField "modified" (m.modified.map Json.str) ++
    optField "createdBy" (m.createdBy.map Json.str) ++
    optField "modifiedBy" (m.modifiedBy.map Json.str))

def encodeTableData (d : TableData) : Json :=
  .obj ([("version", Json.str d.version),
    ("rows", Json.arr (d.rows.map encodeTableRow)),
    ("columns", Json.arr (d.columns.map encodeTableColumn))] ++
    optField "settings" (d.settings.map encodeTableSettings) ++
    optField "metadata" (d.metadata.map encodeTableMetadata))

/-! ## `validateTableData` (`lib/types/table.ts` lines 182-209)

Direct translation of the validator over untyped JSON values; the
source's early `return false` statements become short-circuit `&&`. -/

/-- One cell check from the inner loop: `!cell.id ||
typeof cell.content !== 'string'` fails the validation. -/
def validCellJson (cell : Json) : Bool :=
  jsTruthy (cell.getField "id") &&
    (match cell.getField "content" with
      | some (.str _) => true
      | _ => false)

/-- One row check from the outer loop over `table.rows`. -/
def validRowJson (numColumns : Nat) (row : Json) : Bool :=
  jsTruthy (row.getField "id") &&
    (match jsIsArray (row.getField "cells") with
      | some cells => decide (cells.length = numColumns) && cells.all validCellJson
      | none => false)

/-- One column check: `!column.id` fails the validation. -/
def validColumnJson (col : Json) : Bool :=
  jsTruthy (col.getField "id")

/-- Source `validateTableData(data)` from `lib/types/table.ts`. -/
def validateTableData (data : Json) : Bool :=
  jsTruthy (some data) && jsTypeofObject data &&
    jsTruthy (data.getField "version") &&
    (match jsIsArray (data.getField "rows"), jsIsArray (data.getField "columns") with
      | some rows, some columns =>
        rows.all (validRowJson columns.length) && columns.all validColumnJson
      | _, _ => false)

/-! ### The validator with its JavaScript error path made explicit

`validateTableData` performs `row.id`, `cell.id` and `column.id` on
the elements of `rows`, `row.cells` and `columns` without a null
guard; a `null` element (reachable through `JSON.parse`, e.g.
`"rows":[null]`) makes that property access throw a `TypeError`
instead of returning false. The `Except Unit Bool` functions below
model this: `.ok b` is a normal `return b`, `.error ()` is the thrown
`TypeError` (caught by `parseTableData`, which then returns `null`; a
direct caller would see the exception). -/

/-- The inner cell loop `for (const cell of row.cells) { if (!cell.id
|| typeof cell.content !== 'string') return false; }`: a `null` cell
makes `cell.id` throw; on any other cell both accesses are safe and
the test is `validCellJson`. -/
def cellsLoopE : List Json → Except Unit Bool
  | [] => .ok true
  | c :: cl =>
    if c.isNull then .error ()
    else if validCellJson c then cellsLoopE cl
    else .ok false

/-- One step of the outer row loop: a `null` row makes `row.id` throw;
otherwise `!row.id`, `Array.isArray(row.cells)` and the cell-count
check run as in `validRowJson`, then the cell loop. -/
def rowCheckE (numColumns : Nat) (row : Json) : Except Unit Bool :=
  if row.isNull then .error ()
  else if !jsTruthy (row.getField "id") then .ok false
  else match jsIsArray (row.getField "cells") with
    | none => .ok false
    | some cells =>
      if cells.length ≠ numColumns then .ok false
      else cellsLoopE cells

/-- The outer loop over `table.rows`, stopping at the first `return
false` or thrown error. -/
def rowsLoopE (numColumns : Nat) : List Json → Except Unit Bool
  | [] => .ok true
  | r :: rs =>
    match rowCheckE numColumns r with
    | .error e => .error e
    | .ok false => .ok false
    | .ok true => rowsLoopE numColumns rs

/-- The column loop `if (!column.id) return false`: a `null` column
makes `column.id` throw. -/
def colsLoopE : List Json → Except Unit Bool
  | [] => .ok true
  | c :: cs =>
    if c.isNull then .error ()
    else if validColumnJson c then colsLoopE cs
    else .ok false

/-- Source `validateTableData` with the JavaScript error path
explicit: same top-level guards as `validateTableData`, then the row
loop (which can throw on a `null` row or cell), then the column loop
(which can throw on a `null` column). On inputs with no null array
elements this agrees with the total `validateTableData`
(`validateTableDataE_eq_of_no_null`). -/
def validateTableDataE (data : Json) : Except Unit Bool :=
  if !(jsTruthy (some data) && jsTypeofObject data && jsTruthy (data.getField "version")) then
    .ok false
  else match jsIsArray (data.getField "rows"), jsIsArray (data.getField "columns") with
    | some rows, some columns =>
      (match rowsLoopE columns.length rows with
        | .error e => .error e
        | .ok false => .ok false
        | .ok true => colsLoopE columns)
    | _, _ => .ok false

/-- No element of `rows`, of any row's `cells`, or of `columns` is the
literal `null` — the condition under which `validateTableData` cannot
throw. -/
def jsonNoNullElements (j : Json) : Bool :=
  (match jsIsArray (j.getField "rows") with
    | some rs => rs.all (fun r => !r.isNull &&
        (match jsIsArray (r.getField "cells") with
          | some cl => cl.all (fun c => !c.isNull)
          | none => true))
    | none => true) &&
  (match jsIsArray (j.getField "columns") with
    | some cs => cs.all (fun c => !c.isNull)
    | none => true)

/-- Source `parseTableData(json)` from `lib/types/table.ts`: the JSON text has
already been parsed into a tree (a text that fails `JSON.parse` never
produces a tree, matching the `catch` branch returning `null`); on
validation failure the function returns `null`, modelled as `none`, and
on success it returns the parsed value itself. -/
def parseTableData (parsed : Json) : Option Json :=
  if validateTableData parsed then some parsed else none

/-- The metadata update inside `serializeTableData`:
`{ ...data.metadata, modified: new Date().toISOString() }`, where
spreading an absent (`undefined`) metadata yields an empty object. The
serialization-time timestamp is passed in as `now`. -/
def refreshMetadata (now : String) : Option TableMetadata → TableMetadata
  | none => { modified := some now }
  | some m => { m with modified := some now }

/-- The updated document built by `serializeTableData`:
`{ ...data, metadata: { ...data.metadata, modified: now } }`. -/
def refreshDoc (now : String) (d : TableData) : TableData :=
  { d with metadata := some (refreshMetadata now d.metadata) }

/-- Source `serializeTableData(data)` from `lib/types/table.ts`.
`JSON.stringify` is modelled at the JSON-tree level (the concrete text
rendering belongs to the JSON library, and `JSON.parse` recovers the
tree); `new Date().toISOString()` is the parameter `now`. -/
def serializeTableData (now : String) (d : TableData) : Json :=
  encodeTableData (refreshDoc now d)

/-! ## JavaScript array operations used by the Grid Editor

The handlers in `table-builder.tsx` use `splice(i, 0, x)` (insert,
index clamped to the array length), `filter((_, idx) => idx !== i)`
(remove at most the element at `i`), adjacent-element destructuring
swaps, and `map` touching the element at one index. Indices are
modelled as `Nat`. `splice`, `filter` and `map` behave identically at
every `Nat` index; the destructuring swap does NOT: at an out-of-range
index JavaScript reads `undefined` and writes it back, extending the
array with `undefined` entries, and the handler then emits the
corrupted document via `onChange`. `listSwap` below models only the
in-range behaviour (identity out of range), so theorems about the move
handlers carry in-range hypotheses; the JavaScript-level functions
`jsGet`/`jsSet`/`jsDestructuringSwap` model the out-of-range behaviour
exactly, `listSwap_models_js` proves the two agree in range, and the
C1 counterexample exhibits the out-of-range corruption. -/

/-- Source `arr.splice(i, 0, x)` for `0 ≤ i`: insert `x` at position `i`,
clamped to the end of the list. -/
def listInsertAt (x : α) : Nat → List α → List α
  | _, [] => [x]
  | 0, l => x :: l
  | n + 1, a :: l => a :: listInsertAt x n l

/-- Source `arr.filter((_, idx) => idx !== i)`: remove the element at index
`i`; out of range, the list is unchanged. -/
def listEraseAt : Nat → List α → List α
  | _, [] => []
  | 0, _ :: l => l
  | n + 1, a :: l => a :: listEraseAt n l

/-- Replace the element at index `i` (the `map((e, idx) => idx === i ?
f e : e)` pattern and the single-slot array update); out of range, the
list is unchanged. -/
def listModify (f : α → α) : Nat → List α → List α
  | _, [] => []
  | 0, a :: l => f a :: l
  | n + 1, a :: l => a :: listModify f n l

/-- The destructuring swap `[a[i], a[j]] = [a[j], a[i]]` for two
in-range indices. Out of range this returns the list unchanged, which
is NOT what the source does there (JavaScript extends the array with
`undefined` entries — see `jsDestructuringSwap`); theorems using
`listSwap` therefore restrict to in-range indices, where
`listSwap_models_js` shows it is exact. -/
def listSwap (i j : Nat) (l : List α) : List α :=
  match l[i]?, l[j]? with
  | some a, some b => (l.set i b).set j a
  | _, _ => l

/-- JavaScript read `a[i]` on an array whose entries may be
`undefined` (`none`): a hole or out-of-range read yields
`undefined`. -/
def jsGet (l : List (Option α)) (i : Nat) : Option α :=
  match l[i]? with
  | some v => v
  | none => none

/-- JavaScript write `a[i] = v`: in range it replaces the element;
past the end it extends the array, filling the gap with holes (read
back as `undefined`) and setting the length to `i + 1`. -/
def jsSet (l : List (Option α)) (i : Nat) (v : Option α) : List (Option α) :=
  if i < l.length then l.set i v
  else l ++ List.replicate (i - l.length) none ++ [v]

/-- The destructuring swap `[a[i], a[j]] = [a[j], a[i]]` of the move
handlers exactly as JavaScript executes it: the right-hand side is
read first (`a[j]`, then `a[i]`), then the two writes happen in order
— so an out-of-range index writes `undefined` into the array and
extends it. -/
def jsDestructuringSwap (i j : Nat) (l : List (Option α)) : List (Option α) :=
  let v0 := jsGet l j
  let v1 := jsGet l i
  jsSet (jsSet l i v0) j v1

/-- Source `handleMoveRowUp` acting on the rows array at the
JavaScript level: the only guard is `index === 0`; any other index
runs the destructuring swap at `index - 1`, `index`, including out of
range. -/
def jsHandleMoveRowUpRows (index : Nat) (rows : List (Option TableRow)) :
    List (Option TableRow) :=
  if index = 0 then rows
  else jsDestructuringSwap (index - 1) index rows

/-- The row-cell-count invariant at the JavaScript level: every entry
of `rows` is a defined row with exactly `numColumns` cells; an
`undefined` entry violates it. -/
def jsRowsSatisfyInvariant (numColumns : Nat) (rows : List (Option TableRow)) : Bool :=
  rows.all (fun o =>
    match o with
    | some r => r.cells.length == numColumns
    | none => false)

/-! ## Factory functions (`lib/types/table.ts` lines 111-177)

`crypto.randomUUID()` is nondeterministic; it is modelled by a counter
threaded through every creation, each call drawing the next id. The
claims proved below do not depend on the generated id strings. -/

def freshId (n : Nat) : String := "uuid-" ++ toString n

/-- The default format written into every freshly created cell. -/
def newCellFormat : CellFormat :=
  { align := some .left, verticalAlign := some .middle,
    fontWeight := some .normal, wrap := some true }

/-- Source `createEmptyCell()`. -/
def createEmptyCell (n : Nat) : TableCell × Nat :=
  ({ id := freshId n, content := "", format := some newCellFormat }, n + 1)

/-- Source `Array.from({length: count}, () => createEmptyCell())`. -/
def createCells : Nat → Nat → List TableCell × Nat
  | 0, n => ([], n)
  | count + 1, n =>
    let (c, n1) := createEmptyCell n
    let (cs, n2) := createCells count n1
    (c :: cs, n2)

/-- Source `createEmptyRow(columnCount, isHeader)`. -/
def createEmptyRow (columnCount : Nat) (h : Bool) (n : Nat) : TableRow × Nat :=
  let rowId := freshId n
  let (cells, n1) := createCells columnCount (n + 1)
  ({ id := rowId, isHeader := some h, cells := cells }, n1)

/-- Source `createEmptyColumn()`. -/
def createEmptyColumn (n : Nat) : TableColumn × Nat :=
  ({ id := freshId n, width := some "auto" }, n + 1)

/-- The rows `Array.from({length: rows}, (_, index) => createEmptyRow(columns,
hasHeaderRow && index === 0))` of `createEmptyTable`, built from row
index `index` upward. -/
def createRows (columnCount : Nat) (hasHeaderRow : Bool) :
    Nat → Nat → Nat → List TableRow × Nat
  | 0, _, n => ([], n)
  | count + 1, index, n =>
    let (r, n1) := createEmptyRow columnCount (hasHeaderRow && index == 0) n
    let (rs, n2) := createRows columnCount hasHeaderRow count (index + 1) n1
    (r :: rs, n2)

/-- Source `createEmptyTable(rows, columns, hasHeaderRow)`; `now` stands for
`new Date().toISOString()`. -/
def createEmptyTable (rowCount columnCount : Nat) (hasHeaderRow : Bool)
    (now : String) (n : Nat) : TableData × Nat :=
  let (cols, n1) := (List.range columnCount).foldl
    (fun (acc : List TableColumn × Nat) _ =>
      let (c, m) := createEmptyColumn acc.2
      (acc.1 ++ [c], m)) ([], n)
  let (rows, n2) := createRows columnCount hasHeaderRow rowCount 0 n1
  ({ version := "1.0",
     columns := cols,
     rows := rows,
     settings := some { hasHeaderRow := some hasHeaderRow,
                        hasBorders := some true,
                        isStriped := some false,
                        defaultCellFormat := some newCellFormat },
     metadata := some { created := some now, modified := some now } }, n2)

/-! ## Grid Editor handlers (`components/table-forge/table-builder.tsx`)

Each handler builds the updated document passed to `onChange`; a
handler that returns early without calling `onChange` leaves the
document unchanged, which is modelled by returning the input document.
Handlers that create rows, columns or cells thread the id counter. -/

/-- Source `handleAddRow` (lines 47-54). -/
def handleAddRow (d : TableData) (n : Nat) : TableData × Nat :=
  let (newRow, n1) := createEmptyRow d.columns.length false n
  ({ d with rows := d.rows ++ [newRow] }, n1)

/-- Source `handleInsertRowAfter(index)` (lines 59-69): `splice(index + 1, 0,
newRow)`. -/
def handleInsertRowAfter (index : Nat) (d : TableData) (n : Nat) : TableData × Nat :=
  let (newRow, n1) := createEmptyRow d.columns.length false n
  ({ d with rows := listInsertAt newRow (index + 1) d.rows }, n1)

/-- Source `handleRemoveRow(index)` (lines 74-84): no-op when at most one row
remains. -/
def handleRemoveRow (index : Nat) (d : TableData) : TableData :=
  if d.rows.length ≤ 1 then d
  else { d with rows := listEraseAt index d.rows }

/-- Source `handleMoveRowUp(index)` (lines 89-103): no-op at index 0. -/
def handleMoveRowUp (index : Nat) (d : TableData) : TableData :=
  if index = 0 then d
  else { d with rows := listSwap (index - 1) index d.rows }

/-- Source `handleMoveRowDown(index)` (lines 108-122): no-op at the last
index. -/
def handleMoveRowDown (index : Nat) (d : TableData) : TableData :=
  if index = d.rows.length - 1 then d
  else { d with rows := listSwap index (index + 1) d.rows }

/-- The `rows.map((row) => ({ ...row, cells: [...row.cells,
createEmptyCell()] }))` of `handleAddColumn`: a distinct fresh cell is
appended to every row. -/
def appendCellToRows : List TableRow → Nat → List TableRow × Nat
  | [], n => ([], n)
  | r :: rs, n =>
    let (c, n1) := createEmptyCell n
    let (rest, n2) := appendCellToRows rs n1
    ({ r with cells := r.cells ++ [c] } :: rest, n2)

/-- Source `handleAddColumn` (lines 127-143). -/
def handleAddColumn (d : TableData) (n : Nat) : TableData × Nat :=
  let (newColumn, n1) := createEmptyColumn n
  let (updatedRows, n2) := appendCellToRows d.rows n1
  ({ d with columns := d.columns ++ [newColumn], rows := updatedRows }, n2)

/-- The per-row `cells.splice(index + 1, 0, createEmptyCell())` of
`handleInsertColumnAfter`. -/
def insertCellIntoRows (index : Nat) : List TableRow → Nat → List TableRow × Nat
  | [], n => ([], n)
  | r :: rs, n =>
    let (c, n1) := createEmptyCell n
    let (rest, n2) := insertCellIntoRows index rs n1
    ({ r with cells := listInsertAt c (index + 1) r.cells } :: rest, n2)

/-- Source `handleInsertColumnAfter(index)` (lines 148-169). -/
def handleInsertColumnAfter (index : Nat) (d : TableData) (n : Nat) : TableData × Nat :=
  let (newColumn, n1) := createEmptyColumn n
  let (updatedRows, n2) := insertCellIntoRows index d.rows n1
  ({ d with columns := listInsertAt newColumn (index + 1) d.columns,
            rows := updatedRows }, n2)

/-- Source `handleRemoveColumn(index)` (lines 174-192): no-op when at most one
column remains; otherwise removes column `index` and cell `index` from
every row. -/
def handleRemoveColumn (index : Nat) (d : TableData) : TableData :=
  if d.columns.length ≤ 1 then d
  else
    { d with columns := listEraseAt index d.columns,
             rows := d.rows.map (fun r => { r with cells := listEraseAt index r.cells }) }

/-- Source `handleMoveColumnLeft(index)` (lines 197-221): no-op at index 0. -/
def handleMoveColumnLeft (index : Nat) (d : TableData) : TableData :=
  if index = 0 then d
  else
    { d with columns := listSwap (index - 1) index d.columns,
             rows := d.rows.map (fun r => { r with cells := listSwap (index - 1) index r.cells }) }

/-- Source `handleMoveColumnRight(index)` (lines 226-250): no-op at the last
index. -/
def handleMoveColumnRight (index : Nat) (d : TableData) : TableData :=
  if index = d.columns.length - 1 then d
  else
    { d with columns := listSwap index (index + 1) d.columns,
             rows := d.rows.map (fun r => { r with cells := listSwap index (index + 1) r.cells }) }

/-- Source `handleCellChange(rowIndex, cellIndex, newContent)` (lines
255-273). -/
def handleCellChange (rowIndex cellIndex : Nat) (newContent : String)
    (d : TableData) : TableData :=
  { d with rows := listModify
                     (fun row => { row with cells := listModify
                                              (fun cell => { cell with content := newContent })
                                              cellIndex row.cells })
                     rowIndex d.rows }

/-- JS truthiness of the optional `isHeader` flag (`undefined` is
falsy). -/
def rowIsHeader (r : TableRow) : Bool := r.isHeader.getD false

/-- The `{ ...data.settings, hasHeaderRow: b }` spread in
`handleToggleHeader`. -/
def spreadSettings (b : Bool) : Option TableSettings → TableSettings
  | none => { hasHeaderRow := some b }
  | some s => { s with hasHeaderRow := some b }

/-- Source `handleToggleHeader(rowIndex)` (lines 278-294): flips
`rows[rowIndex].isHeader` and recomputes `settings.hasHeaderRow =
updatedRows.some(row => row.isHeader)`. -/
def handleToggleHeader (rowIndex : Nat) (d : TableData) : TableData :=
  let updatedRows := listModify
    (fun row => { row with isHeader := some (!rowIsHeader row) }) rowIndex d.rows
  { d with rows := updatedRows,
           settings := some (spreadSettings (updatedRows.any rowIsHeader) d.settings) }

/-- Source `handleCellFormatChange(rowIndex, cellIndex, newFormat)` (lines
299-317). -/
def handleCellFormatChange (rowIndex cellIndex : Nat) (newFormat : CellFormat)
    (d : TableData) : TableData :=
  { d with rows := listModify
                     (fun row => { row with cells := listModify
                                              (fun cell => { cell with format := some newFormat })
                                              cellIndex row.cells })
                     rowIndex d.rows }

/-! ## Operation sequences -/

/-- One Grid Editor operation with its arguments. -/
inductive GridOp where
  | addRow
  | insertRowAfter (index : Nat)
  | removeRow (index : Nat)
  | moveRowUp (index : Nat)
  | moveRowDown (index : Nat)
  | toggleHeader (index : Nat)
  | addColumn
  | insertColumnAfter (index : Nat)
  | removeColumn (index : Nat)
  | moveColumnLeft (index : Nat)
  | moveColumnRight (index : Nat)
  | setCellContent (rowIndex cellIndex : Nat) (text : String)
  | setCellFormat (rowIndex cellIndex : Nat) (format : CellFormat)
deriving DecidableEq, Repr

/-- Apply one operation to the document, threading the fresh-id
counter. -/
def applyOp (op : GridOp) : TableData × Nat → TableData × Nat
  | (d, n) =>
    match op with
    | .addRow => handleAddRow d n
    | .insertRowAfter i => handleInsertRowAfter i d n
    | .removeRow i => (handleRemoveRow i d, n)
    | .moveRowUp i => (handleMoveRowUp i d, n)
    | .moveRowDown i => (handleMoveRowDown i d, n)
    | .toggleHeader i => (handleToggleHeader i d, n)
    | .addColumn => handleAddColumn d n
    | .insertColumnAfter i => handleInsertColumnAfter i d n
    | .removeColumn i => (handleRemoveColumn i d, n)
    | .moveColumnLeft i => (handleMoveColumnLeft i d, n)
    | .moveColumnRight i => (handleMoveColumnRight i d, n)
    | .setCellContent r c text => (handleCellChange r c text d, n)
    | .setCellFormat r c f => (handleCellFormatChange r c f d, n)

/-- Apply a sequence of operations in order. -/
def applyOps (ops : List GridOp) (st : TableData × Nat) : TableData × Nat :=
  ops.foldl (fun acc op => applyOp op acc) st

/-- The documented invariant: every row has exactly as many cells as
there are columns. -/
def validDoc (d : TableData) : Bool :=
  d.rows.all (fun r => r.cells.length == d.columns.length)

/-- The operation-table precondition: every index argument addresses
an existing row/column of the current document (these are the only
indices the component supplies — its buttons are rendered from
`data.rows.map`/`data.columns.map`). -/
def opInRange (d : TableData) : GridOp → Bool
  | .addRow => true
  | .addColumn => true
  | .insertRowAfter i => decide (i < d.rows.length)
  | .removeRow i => decide (i < d.rows.length)
  | .moveRowUp i => decide (i < d.rows.length)
  | .moveRowDown i => decide (i < d.rows.length)
  | .toggleHeader i => decide (i < d.rows.length)
  | .insertColumnAfter i => decide (i < d.columns.length)
  | .removeColumn i => decide (i < d.columns.length)
  | .moveColumnLeft i => decide (i < d.columns.length)
  | .moveColumnRight i => decide (i < d.columns.length)
  | .setCellContent r c _ => decide (r < d.rows.length) && decide (c < d.columns.length)
  | .setCellFormat r c _ => decide (r < d.rows.length) && decide (c < d.columns.length)

/-- Every operation of a sequence satisfies its precondition at the
point where it is applied. -/
def opsInRange : List GridOp → TableData → Nat → Bool
  | [], _, _ => true
  | op :: ops, d, n =>
    opInRange d op && opsInRange ops (applyOp op (d, n)).1 (applyOp op (d, n)).2

/-- The operation sequence used by the C1 witness. -/
def sampleOps : List GridOp :=
  [.addColumn, .insertRowAfter 1, .removeColumn 0, .moveColumnLeft 1, .toggleHeader 0,
   .setCellContent 0 1 "z", .addRow, .insertColumnAfter 0, .moveRowDown 0,
   .removeRow 2, .moveRowUp 1, .moveColumnRight 0, .setCellFormat 1 0 { wrap := some false }]

/-! ## Format Toolbar (`components/table-forge/cell-format-toolbar.tsx`)

The toolbar receives the selected cell's `format` (possibly
`undefined`) and, on a control activation, emits `{ ...currentFormat,
<changed field> }` where `currentFormat` is the received format or the
toolbar's default. -/

/-- The toolbar's fallback format (lines 40-45): `format || { align:
"left", verticalAlign: "middle", fontWeight: "normal", wrap: true }`. -/
def toolbarDefaultFormat : CellFormat :=
  { align := some .left, verticalAlign := some .middle,
    fontWeight := some .normal, wrap := some true }

/-- One activation of a toolbar control. -/
inductive ToolbarAction where
  | setAlign (a : CellAlignment)
  | setVerticalAlign (v : CellVerticalAlignment)
  | setFontWeight (w : FontWeight)
deriving DecidableEq, Repr

/-- The format record the toolbar passes to `onChange` for one control
activation (`handleAlignChange`, `handleVerticalAlignChange`,
`handleFontWeightChange`, lines 47-57). -/
def toolbarEmit (format : Option CellFormat) (act : ToolbarAction) : CellFormat :=
  let currentFormat := format.getD toolbarDefaultFormat
  match act with
  | .setAlign a => { currentFormat with align := some a }
  | .setVerticalAlign v => { currentFormat with verticalAlign := some v }
  | .setFontWeight w => { currentFormat with fontWeight := some w }

/-- A format record is complete when `align`, `verticalAlign`,
`fontWeight` and `wrap` are all defined. -/
def CellFormat.isComplete (f : CellFormat) : Bool :=
  f.align.isSome && f.verticalAlign.isSome && f.fontWeight.isSome && f.wrap.isSome

/-! ## Host sync save handler (`components/table-forge/table-forge.tsx`)

The component state relevant to saving; the transient `isSaving` flag
is set at entry to `handleSave` and cleared in its `finally` block, so
it is `false` again in the state `handleSave` leaves behind. -/

structure ControllerState where
  tableData : TableData
  originalData : Option Json
  isDirty : Bool
  isSaving : Bool
  error : Option String
  successMessage : Option String

/-- Outcome of the host `client.setValue` call: resolves, or rejects
with the message that `handleSave`'s `catch` block surfaces
(`err.message` for an `Error`, otherwise the fallback text). -/
inductive SaveOutcome where
  | ok
  | rejected (msg : String)
deriving DecidableEq, Repr

/-- Source `handleSave` (lines 103-136): clears messages, validates the
document (a failure throws into the `catch` block before `setValue`
is ever called), serializes, hands the text to the host, and on
success replaces the snapshot and clears the dirty flag; any thrown or
rejected error lands in `catch`, which sets the error message and
changes nothing else. `now` stands for the serialization timestamp. -/
def handleSave (now : String) (outcome : SaveOutcome) (s : ControllerState) : ControllerState :=
  if validateTableData (encodeTableData s.tableData) = false then
    { s with isSaving := false,
             error := some "Invalid table data structure",
             successMessage := none }
  else
    match outcome with
    | .ok =>
      let jsonData := serializeTableData now s.tableData
      { s with originalData := some jsonData,
               isDirty := false,
               successMessage := some "Table saved successfully!",
               error := none,
               isSaving := false }
    | .rejected msg =>
      { s with error := some msg,
               successMessage := none,
               isSaving := false }

/-! ## Concrete sample documents used as witnesses -/

/-- A 1-row, 1-column document that passes `validateTableData`. -/
def sampleDoc : TableData :=
  { version := "1.0",
    rows := [{ id := "r1", cells := [{ id := "c1", content := "hello" }] }],
    columns := [{ id := "k1" }] }

/-- A 2-row, 2-column document with no header row, used for the
header-toggle and invariant witnesses. -/
def sampleDoc2 : TableData :=
  { version := "1.0",
    rows := [{ id := "r1", isHeader := some false,
               cells := [{ id := "c1", content := "" }, { id := "c2", content := "x" }] },
             { id := "r2",
               cells := [{ id := "c3", content := "y" }, { id := "c4", content := "" }] }],
    columns := [{ id := "k1" }, { id := "k2", width := some "auto" }] }

/-- An untyped document in which both rows share one id, both columns
share one id, and all four cells share one id, while every structural
check of `validateTableData` holds. -/
def dupIdDoc : Json :=
  .obj [("version", .str "1.0"),
    ("rows", .arr [
      .obj [("id", .str "dup-row"),
        ("cells", .arr [
          .obj [("id", .str "dup-cell"), ("content", .str "a")],
          .obj [("id", .str "dup-cell"), ("content", .str "b")]])],
      .obj [("id", .str "dup-row"),
        ("cells", .arr [
          .obj [("id", .str "dup-cell"), ("content", .str "c")],
          .obj [("id", .str "dup-cell"), ("content", .str "d")]])]]),
    ("columns", .arr [
      .obj [("id", .str "dup-col")],
      .obj [("id", .str "dup-col")]])]

/-- The result of `JSON.parse` on the valid JSON text
`{"version":"1.0","rows":[null],"columns":[]}` — a version tag, a rows
array containing one `null`, an empty columns array: a reachable input
on which `validateTableData` throws. -/
def nullRowDoc : Json :=
  .obj [("version", .str "1.0"),
    ("rows", .arr [.null]),
    ("columns", .arr [])]

/-- A dirty controller state over `sampleDoc`, used as the save-failure
witness. -/
def sampleDirtyState : ControllerState :=
  { tableData := sampleDoc,
    originalData := some (encodeTableData sampleDoc),
    isDirty := true,
    isSaving := false,
    error := none,
    successMessage := none }

/-- Source `settings.hasHeaderRow` as the component reads it
(`data.settings.hasHeaderRow`, `undefined` when settings is absent). -/
def docHasHeaderRow (d : TableData) : Option Bool :=
  match d.settings with
  | none => none
  | some s => s.hasHeaderRow

/-- The malformed-input conditions of claim C4, phrased on an untyped
value: `value` is `null` or not an object; `version` is falsy; `rows`
or `columns` is not an array; some row lacks an `id` or has `cells`
that is not an array; some row's cell count differs from
`columns.length`; some cell lacks an `id` or has non-string `content`;
some column lacks an `id`. -/
def MalformedTable (j : Json) : Prop :=
  (j = Json.null ∨ jsTypeofObject j = false) ∨
  jsTruthy (j.getField "version") = false ∨
  jsIsArray (j.getField "rows") = none ∨
  jsIsArray (j.getField "columns") = none ∨
  (∃ rs, jsIsArray (j.getField "rows") = some rs ∧ ∃ r ∈ rs,
    jsTruthy (r.getField "id") = false ∨ jsIsArray (r.getField "cells") = none) ∨
  (∃ rs cs, jsIsArray (j.getField "rows") = some rs ∧
    jsIsArray (j.getField "columns") = some cs ∧
    ∃ r ∈ rs, ∃ cl, jsIsArray (r.getField "cells") = some cl ∧ cl.length ≠ cs.length) ∨
  (∃ rs, jsIsArray (j.getField "rows") = some rs ∧ ∃ r ∈ rs, ∃ cl,
    jsIsArray (r.getField "cells") = some cl ∧ ∃ c ∈ cl,
      jsTruthy (c.getField "id") = false ∨ ∀ s, c.getField "content" ≠ some (Json.str s)) ∨
  (∃ cs, jsIsArray (j.getField "columns") = some cs ∧ ∃ c ∈ cs,
    jsTruthy (c.getField "id") = false)

/-! ## Lemmas about the array-operation helpers -/

theorem length_listInsertAt (x : α) : ∀ (n : Nat) (l : List α),
    (listInsertAt x n l).length = l.length + 1 := by
  intro n l
  induction l generalizing n with
  | nil => cases n <;> simp [listInsertAt]
  | cons a l ih =>
    cases n with
    | zero => simp [listInsertAt]
    | succ m => simp [listInsertAt, ih]

theorem length_listEraseAt : ∀ (n : Nat) (l : List α),
    (listEraseAt n l).length = if n < l.length then l.length - 1 else l.length := by
  intro n l
  induction l generalizing n with
  | nil => cases n <;> simp [listEraseAt]
  | cons a l ih =>
    cases n with
    | zero => simp [listEraseAt]
    | succ m =>
      simp only [listEraseAt, List.length_cons, ih, Nat.succ_lt_succ_iff]
      by_cases h : m < l.length
      · simp only [if_pos h]
        omega
      · simp only [if_neg h]

theorem length_listModify (f : α → α) : ∀ (n : Nat) (l : List α),
    (listModify f n l).length = l.length := by
  intro n l
  induction l generalizing n with
  | nil => cases n <;> simp [listModify]
  | cons a l ih =>
    cases n with
    | zero => simp [listModify]
    | succ m => simp [listModify, ih]

theorem length_listSwap (i j : Nat) (l : List α) :
    (listSwap i j l).length = l.length := by
  unfold listSwap
  cases hi : l[i]? <;> cases hj : l[j]? <;> simp

/-- On in-range indices the JavaScript destructuring swap is exactly
`listSwap`; out of range the two differ (the source extends the array
with `undefined`), which is why the Grid Editor theorems carry
in-range hypotheses. -/
theorem listSwap_models_js (i j : Nat) (l : List α) (hi : i < l.length) (hj : j < l.length) :
    jsDestructuringSwap i j (l.map some) = (listSwap i j l).map some := by
  have hi' : i < (l.map some).length := by simpa using hi
  have hj' : j < (l.map some).length := by simpa using hj
  have hg1 : jsGet (l.map some) j = some (l.get ⟨j, hj⟩) := by
    unfold jsGet
    rw [List.getElem?_eq_getElem hj']
    simp
  have hg2 : jsGet (l.map some) i = some (l.get ⟨i, hi⟩) := by
    unfold jsGet
    rw [List.getElem?_eq_getElem hi']
    simp
  simp only [jsDestructuringSwap, hg1, hg2]
  unfold jsSet
  rw [if_pos hi']
  rw [if_pos (show j < ((l.map some).set i (some (l.get ⟨j, hj⟩))).length by simpa using hj)]
  unfold listSwap
  rw [List.getElem?_eq_getElem hi, List.getElem?_eq_getElem hj]
  simp [List.map_set]

theorem all_listInsertAt_of (p : α → Bool) (x : α) (hx : p x = true) :
    ∀ (n : Nat) (l : List α), l.all p = true → (listInsertAt x n l).all p = true := by
  intro n l
  induction l generalizing n with
  | nil => intro _; cases n <;> simp [listInsertAt, hx]
  | cons a l ih =>
    intro h
    rw [List.all_cons, Bool.and_eq_true] at h
    cases n with
    | zero => simp [listInsertAt, hx, h.1, h.2]
    | succ m => simp [listInsertAt, h.1, ih m h.2]

theorem all_listEraseAt_of (p : α → Bool) :
    ∀ (n : Nat) (l : List α), l.all p = true → (listEraseAt n l).all p = true := by
  intro n l
  induction l generalizing n with
  | nil => intro _; cases n <;> simp [listEraseAt]
  | cons a l ih =>
    intro h
    rw [List.all_cons, Bool.and_eq_true] at h
    cases n with
    | zero => exact h.2
    | succ m => simp [listEraseAt, h.1, ih m h.2]

theorem mem_listSwap (i j : Nat) (l : List α) (a : α) (h : a ∈ listSwap i j l) :
    a ∈ l := by
  unfold listSwap at h
  cases hi : l[i]? with
  | none => rw [hi] at h; exact h
  | some x =>
    cases hj : l[j]? with
    | none => rw [hi, hj] at h; exact h
    | some y =>
      rw [hi, hj] at h
      rcases List.mem_or_eq_of_mem_set h with h2 | h2
      · rcases List.mem_or_eq_of_mem_set h2 with h3 | h3
        · exact h3
        · exact h3 ▸ List.getElem?_mem hj
      · exact h2 ▸ List.getElem?_mem hi

theorem all_listSwap_of (p : α → Bool) (i j : Nat) (l : List α)
    (h : l.all p = true) : (listSwap i j l).all p = true := by
  rw [List.all_eq_true] at h ⊢
  exact fun a ha => h a (mem_listSwap i j l a ha)

theorem all_listModify_of (f : α → α) (p : α → Bool) (hf : ∀ a, p (f a) = p a) :
    ∀ (n : Nat) (l : List α), (listModify f n l).all p = l.all p := by
  intro n l
  induction l generalizing n with
  | nil => cases n <;> simp [listModify]
  | cons a l ih =>
    cases n with
    | zero => simp [listModify, hf]
    | succ m => simp [listModify, ih m]

theorem all_listModify_of_imp (f : α → α) (p : α → Bool) (hf : ∀ a, p (f a) = p a)
    (n : Nat) (l : List α) (h : l.all p = true) : (listModify f n l).all p = true := by
  rw [all_listModify_of f p hf]
  exact h

theorem listModify_getElem_self (f : α → α) :
    ∀ (n : Nat) (l : List α), (listModify f n l)[n]? = l[n]?.map f := by
  intro n l
  induction l generalizing n with
  | nil => cases n <;> simp [listModify]
  | cons a l ih =>
    cases n with
    | zero => simp [listModify]
    | succ m => simpa [listModify] using ih m

theorem listModify_listModify (f g : α → α) :
    ∀ (n : Nat) (l : List α),
      listModify f n (listModify g n l) = listModify (fun a => f (g a)) n l := by
  intro n l
  induction l generalizing n with
  | nil => cases n <;> simp [listModify]
  | cons a l ih =>
    cases n with
    | zero => simp [listModify]
    | succ m => simp [listModify, ih m]

/-- Number of cells in each created row. -/
theorem createCells_length : ∀ (count n : Nat), (createCells count n).1.length = count := by
  intro count
  induction count with
  | zero => intro n; rfl
  | succ k ih => intro n; simp [createCells, createEmptyCell, ih]

theorem createEmptyRow_cells_length (columnCount : Nat) (h : Bool) (n : Nat) :
    (createEmptyRow columnCount h n).1.cells.length = columnCount := by
  simp [createEmptyRow, createCells_length]

/-! ## Claim C1: the row-cell-count invariant is preserved -/

theorem validDoc_iff (d : TableData) :
    validDoc d = true ↔ ∀ r ∈ d.rows, r.cells.length = d.columns.length := by
  simp [validDoc, List.all_eq_true]

theorem appendCellToRows_all (L : Nat) :
    ∀ (rs : List TableRow) (n : Nat), rs.all (fun r => r.cells.length == L) = true →
      ((appendCellToRows rs n).1).all (fun r => r.cells.length == L + 1) = true := by
  intro rs
  induction rs with
  | nil => intro n _; rfl
  | cons r rs ih =>
    intro n h
    rw [List.all_cons, Bool.and_eq_true] at h
    have h1 : r.cells.length = L := by simpa using h.1
    simp [appendCellToRows, createEmptyCell, List.all_cons, h1, ih _ h.2]

theorem insertCellIntoRows_all (L index : Nat) :
    ∀ (rs : List TableRow) (n : Nat), rs.all (fun r => r.cells.length == L) = true →
      ((insertCellIntoRows index rs n).1).all (fun r => r.cells.length == L + 1) = true := by
  intro rs
  induction rs with
  | nil => intro n _; rfl
  | cons r rs ih =>
    intro n h
    rw [List.all_cons, Bool.and_eq_true] at h
    have h1 : r.cells.length = L := by simpa using h.1
    simp [insertCellIntoRows, createEmptyCell, List.all_cons,
      length_listInsertAt, h1, ih _ h.2]

theorem applyOp_preserves_validDoc (op : GridOp) (d : TableData) (n : Nat)
    (h : validDoc d = true) : validDoc (applyOp op (d, n)).1 = true := by
  cases op with
  | addRow =>
    simp only [applyOp, handleAddRow, validDoc] at h ⊢
    rw [List.all_append]
    simp [h, createEmptyRow_cells_length]
  | insertRowAfter i =>
    simp only [applyOp, handleInsertRowAfter, validDoc] at h ⊢
    exact all_listInsertAt_of _ _ (by simp [createEmptyRow_cells_length]) _ _ h
  | removeRow i =>
    simp only [applyOp, handleRemoveRow, validDoc] at h ⊢
    split
    · exact h
    · exact all_listEraseAt_of _ _ _ h
  | moveRowUp i =>
    simp only [applyOp, handleMoveRowUp, validDoc] at h ⊢
    split
    · exact h
    · exact all_listSwap_of _ _ _ _ h
  | moveRowDown i =>
    simp only [applyOp, handleMoveRowDown, validDoc] at h ⊢
    split
    · exact h
    · exact all_listSwap_of _ _ _ _ h
  | toggleHeader i =>
    simp only [applyOp, handleToggleHeader, validDoc] at h ⊢
    exact all_listModify_of_imp
      (fun row => { row with isHeader := some (!rowIsHeader row) }) _ (fun a => rfl) _ _ h
  | addColumn =>
    simp only [applyOp, handleAddColumn, validDoc] at h ⊢
    rw [List.length_append]
    exact appendCellToRows_all _ _ _ h
  | insertColumnAfter i =>
    simp only [applyOp, handleInsertColumnAfter, validDoc] at h ⊢
    rw [length_listInsertAt]
    exact insertCellIntoRows_all _ _ _ _ h
  | removeColumn i =>
    simp only [applyOp, handleRemoveColumn, validDoc] at h ⊢
    split
    · exact h
    · rw [List.all_eq_true] at h ⊢
      intro r hr
      rw [List.mem_map] at hr
      obtain ⟨r0, hr0, rfl⟩ := hr
      have := h r0 hr0
      simp only [beq_iff_eq] at this ⊢
      rw [length_listEraseAt, length_listEraseAt, this]
  | moveColumnLeft i =>
    simp only [applyOp, handleMoveColumnLeft, validDoc] at h ⊢
    split
    · exact h
    · rw [List.all_eq_true] at h ⊢
      intro r hr
      rw [List.mem_map] at hr
      obtain ⟨r0, hr0, rfl⟩ := hr
      have := h r0 hr0
      simpa [length_listSwap] using this
  | moveColumnRight i =>
    simp only [applyOp, handleMoveColumnRight, validDoc] at h ⊢
    split
    · exact h
    · rw [List.all_eq_true] at h ⊢
      intro r hr
      rw [List.mem_map] at hr
      obtain ⟨r0, hr0, rfl⟩ := hr
      have := h r0 hr0
      simpa [length_listSwap] using this
  | setCellContent r c text =>
    simp only [applyOp, handleCellChange, validDoc] at h ⊢
    exact all_listModify_of_imp
      (fun row => { row with cells := listModify (fun cell => { cell with content := text }) c row.cells })
      _ (fun a => by simp [length_listModify]) _ _ h
  | setCellFormat r c f =>
    simp only [applyOp, handleCellFormatChange, validDoc] at h ⊢
    exact all_listModify_of_imp
      (fun row => { row with cells := listModify (fun cell => { cell with format := some f }) c row.cells })
      _ (fun a => by simp [length_listModify]) _ _ h

/-- C1 counterexample: on the valid 2×2 document, `handleMoveRowUp(2)`
— an argument the claim's "any arguments" admits — passes the `index
=== 0` guard and runs the destructuring swap at indices 1 and 2:
JavaScript reads `rows[2]` as `undefined`, writes it into slot 1 and
appends the old `rows[1]` at slot 2, so `onChange` receives a 3-entry
rows array whose middle entry is `undefined`. The emitted document
violates `rows[i].cells.length === columns.length`, refuting the claim
as stated. -/
theorem grid_ops_out_of_range_move_counterexample :
    validDoc sampleDoc2 = true ∧
    (jsHandleMoveRowUpRows 2 (sampleDoc2.rows.map some)).length = 3 ∧
    jsRowsSatisfyInvariant sampleDoc2.columns.length
      (jsHandleMoveRowUpRows 2 (sampleDoc2.rows.map some)) = false :=
  ⟨rfl, rfl, rfl⟩

/-- C1 (amended): for every document in which every row's cell count
equals `columns.length`, and for every sequence of Grid Editor
operations (`addRow`, `insertRowAfter`, `removeRow`, `moveRowUp`,
`moveRowDown`, `toggleHeader`, `addColumn`, `insertColumnAfter`,
`removeColumn`, `moveColumnLeft`, `moveColumnRight`, `setCellContent`,
`setCellFormat`) whose index arguments are in range for the document
they are applied to — the operation-table preconditions, and the only
arguments the UI can supply — the resulting document again satisfies
the invariant; as the sequence is arbitrary, this covers every
document produced along the way. With an out-of-range index the move
handlers instead emit a corrupted document (see the
counterexample). -/
theorem grid_ops_preserve_row_cell_invariant (ops : List GridOp) (d : TableData) (n : Nat)
    (hv : validDoc d = true) (hr : opsInRange ops d n = true) :
    validDoc (applyOps ops (d, n)).1 = true := by
  induction ops generalizing d n with
  | nil => exact hv
  | cons op ops ih =>
    simp only [opsInRange, Bool.and_eq_true] at hr
    have hstep : applyOps (op :: ops) (d, n) = applyOps ops (applyOp op (d, n)) := rfl
    rw [hstep]
    have h1 := applyOp_preserves_validDoc op d n hv
    have hr2 := hr.2
    cases hp : applyOp op (d, n) with
    | mk d1 n1 =>
      rw [hp] at h1 hr2
      exact ih d1 n1 h1 hr2

/-- Witness for C1: a concrete valid 2×2 document and a concrete
in-range operation sequence exercising row and column structure. -/
theorem grid_ops_preserve_row_cell_invariant_witness :
    (validDoc sampleDoc2 = true ∧ opsInRange sampleOps sampleDoc2 0 = true) ∧
      validDoc (applyOps sampleOps (sampleDoc2, 0)).1 = true :=
  ⟨⟨by rfl, by rfl⟩,
    grid_ops_preserve_row_cell_invariant sampleOps sampleDoc2 0 (by rfl) (by rfl)⟩

/-- C5: `removeRow` on a document with exactly one row leaves the
document unchanged for every index, and `removeColumn` on a document
with exactly one column leaves the document unchanged for every
index. -/
theorem remove_floor_noop (d : TableData) (i : Nat) :
    (d.rows.length = 1 → handleRemoveRow i d = d) ∧
    (d.columns.length = 1 → handleRemoveColumn i d = d) := by
  constructor
  · intro h
    simp [handleRemoveRow, h]
  · intro h
    simp [handleRemoveColumn, h]

/-- Witness for C5: the concrete 1×1 document, with an in-range and an
out-of-range index. -/
theorem remove_floor_noop_witness :
    (sampleDoc.rows.length = 1 ∧ handleRemoveRow 0 sampleDoc = sampleDoc) ∧
    (sampleDoc.columns.length = 1 ∧ handleRemoveColumn 5 sampleDoc = sampleDoc) :=
  ⟨⟨rfl, (remove_floor_noop sampleDoc 0).1 rfl⟩,
   ⟨rfl, (remove_floor_noop sampleDoc 5).2 rfl⟩⟩

/-- C6: `moveRowUp(0)`, `moveRowDown(rowCount - 1)`,
`moveColumnLeft(0)` and `moveColumnRight(colCount - 1)` each leave the
document unchanged. -/
theorem move_boundary_noops (d : TableData) :
    handleMoveRowUp 0 d = d ∧
    handleMoveRowDown (d.rows.length - 1) d = d ∧
    handleMoveColumnLeft 0 d = d ∧
    handleMoveColumnRight (d.columns.length - 1) d = d := by
  refine ⟨?_, ?_, ?_, ?_⟩
  · simp [handleMoveRowUp]
  · simp [handleMoveRowDown]
  · simp [handleMoveColumnLeft]
  · simp [handleMoveColumnRight]

/-- C3 counterexample: a cell can carry a *partial* format record
(every `CellFormat` field is optional, and `validateTableData` never
inspects formats, so such a cell can be loaded from the host); for the
cell format `{ align: "left" }`, activating the vertical-align-top
control emits a record whose `fontWeight` and `wrap` are undefined, so
the toolbar does emit a partial format and the claim as stated is
false. -/
theorem toolbar_partial_format_counterexample :
    (toolbarEmit (some { align := some CellAlignment.left })
      (ToolbarAction.setVerticalAlign CellVerticalAlignment.top)).isComplete = false := by
  rfl

/-- C3 (amended): whenever the selected cell has no format record, or
its format record is itself complete, every single control activation
emits a complete format record (defined `align`, `verticalAlign`,
`fontWeight` and `wrap`); and with no format the toolbar behaves
exactly as if the cell carried the default format
`left/middle/normal/wrap:true`, merging the one changed field into
it. -/
theorem toolbar_emit_complete (fmt : Option CellFormat) (act : ToolbarAction)
    (h : fmt.all CellFormat.isComplete = true) :
    (toolbarEmit fmt act).isComplete = true ∧
    toolbarEmit none act = toolbarEmit (some toolbarDefaultFormat) act := by
  refine ⟨?_, rfl⟩
  cases fmt with
  | none => cases act <;> rfl
  | some f =>
    simp only [Option.all_some] at h
    simp only [CellFormat.isComplete, Bool.and_eq_true] at h ⊢
    obtain ⟨⟨⟨h1, h2⟩, h3⟩, h4⟩ := h
    cases act <;> simp [toolbarEmit, h1, h2, h3, h4]

/-- Witness for C3's amended theorem: the no-format cell. -/
theorem toolbar_emit_complete_witness :
    Option.all CellFormat.isComplete none = true ∧
    ((toolbarEmit none (ToolbarAction.setAlign CellAlignment.center)).isComplete = true ∧
      toolbarEmit none (ToolbarAction.setAlign CellAlignment.center) =
        toolbarEmit (some toolbarDefaultFormat) (ToolbarAction.setAlign CellAlignment.center)) :=
  ⟨rfl, toolbar_emit_complete none (ToolbarAction.setAlign CellAlignment.center) rfl⟩

theorem any_listModify_of (f : α → α) (p : α → Bool) (hf : ∀ a, p (f a) = p a) :
    ∀ (n : Nat) (l : List α), (listModify f n l).any p = l.any p := by
  intro n l
  induction l generalizing n with
  | nil => cases n <;> simp [listModify]
  | cons a l ih =>
    cases n with
    | zero => simp [listModify, hf]
    | succ m => simp [listModify, ih m]

theorem spreadSettings_hasHeaderRow (b : Bool) (o : Option TableSettings) :
    (spreadSettings b o).hasHeaderRow = some b := by
  cases o <;> rfl

/-- The toggled row function used by `handleToggleHeader`. -/
theorem any_rowIsHeader_listModify_toggle (i : Nat) (l : List TableRow)
    (hi : i < l.length) (hall : l.all (fun r => !rowIsHeader r) = true) :
    (listModify (fun row => { row with isHeader := some (!rowIsHeader row) }) i l).any
      rowIsHeader = true := by
  rw [List.any_eq_true]
  obtain ⟨r, hr⟩ : ∃ a, l[i]? = some a := ⟨l[i], List.getElem?_eq_getElem hi⟩
  have hgot : (listModify (fun row => { row with isHeader := some (!rowIsHeader row) }) i l)[i]? =
      some { r with isHeader := some (!rowIsHeader r) } := by
    rw [listModify_getElem_self, hr]
    rfl
  refine ⟨_, List.getElem?_mem hgot, ?_⟩
  have hfalse : rowIsHeader r = false := by
    rw [List.all_eq_true] at hall
    have := hall r (List.getElem?_mem hr)
    simpa using this
  simp only [rowIsHeader, Option.getD_some]
  rw [show r.isHeader.getD false = rowIsHeader r from rfl, hfalse]
  rfl

/-- C7: `toggleHeader(i)` flips row `i`'s `isHeader` flag and sets
`settings.hasHeaderRow` to the OR of all rows' flags in the resulting
document; in particular, toggling a row of a document in which no row
is a header yields `hasHeaderRow = true`, and toggling the same row
again yields `hasHeaderRow = false`. -/
theorem toggleHeader_flips_and_recomputes (d : TableData) (i : Nat)
    (hi : i < d.rows.length) :
    ((handleToggleHeader i d).rows[i]?.map rowIsHeader =
      d.rows[i]?.map (fun r => !rowIsHeader r)) ∧
    (docHasHeaderRow (handleToggleHeader i d) =
      some ((handleToggleHeader i d).rows.any rowIsHeader)) ∧
    (d.rows.all (fun r => !rowIsHeader r) = true →
      docHasHeaderRow (handleToggleHeader i d) = some true ∧
      docHasHeaderRow (handleToggleHeader i (handleToggleHeader i d)) = some false) := by
  refine ⟨?_, ?_, ?_⟩
  · show (listModify _ i d.rows)[i]?.map rowIsHeader = _
    rw [listModify_getElem_self]
    cases d.rows[i]? <;> rfl
  · show docHasHeaderRow
      { d with rows := _, settings := some (spreadSettings _ d.settings) } = _
    simp [docHasHeaderRow, spreadSettings_hasHeaderRow, handleToggleHeader]
  · intro hall
    constructor
    · show docHasHeaderRow
        { d with rows := _, settings := some (spreadSettings _ d.settings) } = _
      simp only [docHasHeaderRow, spreadSettings_hasHeaderRow]
      rw [any_rowIsHeader_listModify_toggle i d.rows hi hall]
    · simp only [handleToggleHeader, docHasHeaderRow, spreadSettings_hasHeaderRow]
      rw [listModify_listModify]
      rw [any_listModify_of _ _ (fun a => by simp [rowIsHeader])]
      have : d.rows.any rowIsHeader = false := by
        rw [List.any_eq_false]
        rw [List.all_eq_true] at hall
        intro r hr
        have := hall r hr
        simpa using this
      rw [this]

/-- Witness for C7: toggling row 1 of the all-normal 2×2 document. -/
theorem toggleHeader_flips_and_recomputes_witness :
    (1 < sampleDoc2.rows.length ∧
      sampleDoc2.rows.all (fun r => !rowIsHeader r) = true) ∧
    docHasHeaderRow (handleToggleHeader 1 sampleDoc2) = some true ∧
    docHasHeaderRow (handleToggleHeader 1 (handleToggleHeader 1 sampleDoc2)) = some false :=
  ⟨⟨by decide, by rfl⟩,
    (toggleHeader_flips_and_recomputes sampleDoc2 1 (by decide)).2.2 (by rfl)⟩

/-- C8: if Save is invoked on a dirty state whose document passes
validation (so that the host `setValue` call is actually reached) and
that call rejects, the in-memory document, the saved snapshot and the
dirty flag are all unchanged, an error message is surfaced, and no
success message is shown. -/
theorem save_failure_keeps_edits (s : ControllerState) (now msg : String)
    (hd : s.isDirty = true)
    (hv : validateTableData (encodeTableData s.tableData) = true) :
    (handleSave now (.rejected msg) s).tableData = s.tableData ∧
    (handleSave now (.rejected msg) s).originalData = s.originalData ∧
    (handleSave now (.rejected msg) s).isDirty = true ∧
    (handleSave now (.rejected msg) s).error = some msg ∧
    (handleSave now (.rejected msg) s).successMessage = none := by
  simp [handleSave, hv, hd]

/-- Witness for C8: a concrete dirty state over the valid 1×1
document. -/
theorem save_failure_keeps_edits_witness :
    (sampleDirtyState.isDirty = true ∧
      validateTableData (encodeTableData sampleDirtyState.tableData) = true) ∧
    (handleSave "2026-01-01T00:00:00.000Z" (.rejected "network down")
        sampleDirtyState).tableData = sampleDirtyState.tableData ∧
    (handleSave "2026-01-01T00:00:00.000Z" (.rejected "network down")
        sampleDirtyState).isDirty = true :=
  ⟨⟨rfl, by rfl⟩,
    (save_failure_keeps_edits sampleDirtyState "2026-01-01T00:00:00.000Z"
      "network down" rfl (by rfl)).1,
    (save_failure_keeps_edits sampleDirtyState "2026-01-01T00:00:00.000Z"
      "network down" rfl (by rfl)).2.2.1⟩

/-- C9: `validateTableData` does not require id uniqueness — it
accepts `dupIdDoc`, whose two rows share one id, whose two columns
share one id, and whose four cells all share one id, while every
structural condition holds. -/
theorem validate_accepts_duplicate_ids :
    validateTableData dupIdDoc = true ∧
    (jsIsArray (dupIdDoc.getField "rows")).map
        (fun rs => rs.map (fun r => r.getField "id")) =
      some [some (.str "dup-row"), some (.str "dup-row")] ∧
    (jsIsArray (dupIdDoc.getField "columns")).map
        (fun cs => cs.map (fun c => c.getField "id")) =
      some [some (.str "dup-col"), some (.str "dup-col")] := by
  refine ⟨by rfl, by rfl, by rfl⟩

/-- C10: for every input document — including one with no `metadata`
field at all — the output of `serializeTableData` contains a
`metadata` object whose `modified` field is the serialization-time
timestamp. -/
theorem serialize_always_stamps_modified (d : TableData) (now : String) :
    (serializeTableData now d).getField "metadata" =
      some (encodeTableMetadata (refreshMetadata now d.metadata)) ∧
    (encodeTableMetadata (refreshMetadata now d.metadata)).getField "modified" =
      some (Json.str now) := by
  obtain ⟨v, rows, cols, settings, metadata⟩ := d
  constructor
  · cases settings <;> rfl
  · cases metadata with
    | none => rfl
    | some m =>
      obtain ⟨mc, mm, mcb, mmb⟩ := m
      cases mc <;> rfl

/-! ## Claim C2: serialize/parse round trip -/

theorem encode_getField_version (d : TableData) :
    (encodeTableData d).getField "version" = some (Json.str d.version) := rfl

theorem encode_getField_rows (d : TableData) :
    (encodeTableData d).getField "rows" =
      some (Json.arr (d.rows.map encodeTableRow)) := rfl

theorem encode_getField_columns (d : TableData) :
    (encodeTableData d).getField "columns" =
      some (Json.arr (d.columns.map encodeTableColumn)) := rfl

/-- Validation never reads `metadata`, so refreshing the `modified`
timestamp does not change the verdict. -/
theorem validate_encode_refresh (now : String) (d : TableData) :
    validateTableData (encodeTableData (refreshDoc now d)) =
      validateTableData (encodeTableData d) := rfl

/-- C2: for every document `d` that passes `validateTableData`,
`parseTableData (serializeTableData d)` succeeds and returns exactly
`d` with `metadata.modified` replaced by the serialization-time
timestamp — version, rows, columns and settings are untouched, and the
rest of the metadata is preserved. -/
theorem serialize_parse_round_trip (d : TableData) (now : String)
    (hv : validateTableData (encodeTableData d) = true) :
    parseTableData (serializeTableData now d) =
      some (encodeTableData (refreshDoc now d)) ∧
    (refreshDoc now d).version = d.version ∧
    (refreshDoc now d).rows = d.rows ∧
    (refreshDoc now d).columns = d.columns ∧
    (refreshDoc now d).settings = d.settings ∧
    (refreshDoc now d).metadata = some (refreshMetadata now d.metadata) := by
  refine ⟨?_, rfl, rfl, rfl, rfl, rfl⟩
  have h2 : validateTableData (serializeTableData now d) = true := by
    show validateTableData (encodeTableData (refreshDoc now d)) = true
    rw [validate_encode_refresh]
    exact hv
  simp [parseTableData, serializeTableData] at h2 ⊢
  simp [h2]

/-- Witness for C2: the valid 1×1 document with a fixed timestamp. -/
theorem serialize_parse_round_trip_witness :
    validateTableData (encodeTableData sampleDoc) = true ∧
    parseTableData (serializeTableData "2026-02-03T04:05:06.000Z" sampleDoc) =
      some (encodeTableData (refreshDoc "2026-02-03T04:05:06.000Z" sampleDoc)) :=
  ⟨by rfl,
    (serialize_parse_round_trip sampleDoc "2026-02-03T04:05:06.000Z" (by rfl)).1⟩

/-! ## Claim C4: validation rejects malformed input -/

theorem validRowJson_true {L : Nat} {r : Json} (h : validRowJson L r = true) :
    jsTruthy (r.getField "id") = true ∧
    ∃ cl, jsIsArray (r.getField "cells") = some cl ∧ cl.length = L ∧
      cl.all validCellJson = true := by
  unfold validRowJson at h
  rw [Bool.and_eq_true] at h
  obtain ⟨hid, hm⟩ := h
  refine ⟨hid, ?_⟩
  cases hc : jsIsArray (r.getField "cells") with
  | none =>
    rw [hc] at hm
    exact Bool.noConfusion hm
  | some cl =>
    rw [hc] at hm
    rw [Bool.and_eq_true] at hm
    exact ⟨cl, rfl, by simpa using hm.1, hm.2⟩

theorem validCellJson_true {c : Json} (h : validCellJson c = true) :
    jsTruthy (c.getField "id") = true ∧
    ∃ s, c.getField "content" = some (Json.str s) := by
  unfold validCellJson at h
  rw [Bool.and_eq_true] at h
  obtain ⟨hid, hm⟩ := h
  refine ⟨hid, ?_⟩
  cases hc : c.getField "content" with
  | none =>
    rw [hc] at hm
    exact Bool.noConfusion hm
  | some v =>
    rw [hc] at hm
    cases v with
    | str s => exact ⟨s, rfl⟩
    | null => exact Bool.noConfusion hm
    | bool b => exact Bool.noConfusion hm
    | num n => exact Bool.noConfusion hm
    | arr l => exact Bool.noConfusion hm
    | obj fields => exact Bool.noConfusion hm

/-- Helper for C4 at the total-model level: the total
`validateTableData` returns false on every malformed input. (On inputs
with null array elements the total model diverges from the source,
which throws there; the claim theorem below therefore works with
`validateTableDataE` and restricts to inputs with no null array
elements, where `validateTableDataE_eq_of_no_null` makes this helper
exact.) -/
theorem validateTableData_false_of_malformed (j : Json) (h : MalformedTable j) :
    validateTableData j = false := by
  cases hb : validateTableData j
  · rfl
  · exfalso
    unfold validateTableData at hb
    simp only [Bool.and_eq_true] at hb
    obtain ⟨⟨⟨h1, h2⟩, h3⟩, h4⟩ := hb
    revert h4
    cases hrows : jsIsArray (j.getField "rows") with
    | none =>
      cases hcols : jsIsArray (j.getField "columns") with
      | none => intro h4; exact Bool.noConfusion h4
      | some cs => intro h4; exact Bool.noConfusion h4
    | some rs =>
      cases hcols : jsIsArray (j.getField "columns") with
      | none =>
        intro h4
        exact Bool.noConfusion h4
      | some cs =>
        intro h4
        rw [Bool.and_eq_true] at h4
        obtain ⟨hallr, hallc⟩ := h4
        rw [List.all_eq_true] at hallr hallc
        rcases h with (hnull | htype) | hver | hrn | hcn |
          ⟨rs2, hrs2, r, hrmem, hbad⟩ |
          ⟨rs2, cs2, hrs2, hcs2, r, hrmem, cl, hcl, hlen⟩ |
          ⟨rs2, hrs2, r, hrmem, cl, hcl, c, hcmem, hbadc⟩ |
          ⟨cs2, hcs2, c, hcmem, hbadc⟩
        · subst hnull
          exact Bool.noConfusion h1
        · rw [h2] at htype
          exact Bool.noConfusion htype
        · rw [h3] at hver
          exact Bool.noConfusion hver
        · rw [hrn] at hrows
          exact Option.noConfusion hrows
        · rw [hcn] at hcols
          exact Option.noConfusion hcols
        · rw [hrows] at hrs2
          injection hrs2 with he
          subst he
          have hrv := validRowJson_true (hallr r hrmem)
          rcases hbad with hid | hcells
          · rw [hrv.1] at hid
            exact Bool.noConfusion hid
          · obtain ⟨cl, hcl, _, _⟩ := hrv.2
            rw [hcells] at hcl
            exact Option.noConfusion hcl
        · rw [hrows] at hrs2
          injection hrs2 with he
          subst he
          rw [hcols] at hcs2
          injection hcs2 with he2
          subst he2
          have hrv := validRowJson_true (hallr r hrmem)
          obtain ⟨cl2, hcl2, hlen2, _⟩ := hrv.2
          rw [hcl] at hcl2
          injection hcl2 with he3
          subst he3
          exact hlen hlen2
        · rw [hrows] at hrs2
          injection hrs2 with he
          subst he
          have hrv := validRowJson_true (hallr r hrmem)
          obtain ⟨cl2, hcl2, _, hcells⟩ := hrv.2
          rw [hcl] at hcl2
          injection hcl2 with he3
          subst he3
          rw [List.all_eq_true] at hcells
          have hcv := validCellJson_true (hcells c hcmem)
          rcases hbadc with hid | hcontent
          · rw [hcv.1] at hid
            exact Bool.noConfusion hid
          · obtain ⟨s, hs⟩ := hcv.2
            exact hcontent s hs
        · rw [hcols] at hcs2
          injection hcs2 with he
          subst he
          have := hallc c hcmem
          unfold validColumnJson at this
          rw [this] at hbadc
          exact Bool.noConfusion hbadc

theorem cellsLoopE_eq (cl : List Json) (h : cl.all (fun c => !c.isNull) = true) :
    cellsLoopE cl = .ok (cl.all validCellJson) := by
  induction cl with
  | nil => rfl
  | cons c cl ih =>
    rw [List.all_cons, Bool.and_eq_true] at h
    have hc : c.isNull = false := by simpa using h.1
    rw [List.all_cons]
    by_cases hv : validCellJson c
    · simp [cellsLoopE, hc, hv, ih h.2]
    · simp [cellsLoopE, hc, hv]

theorem rowCheckE_eq (L : Nat) (r : Json) (hr : r.isNull = false)
    (hcells : (match jsIsArray (r.getField "cells") with
      | some cl => cl.all (fun c => !c.isNull)
      | none => true) = true) :
    rowCheckE L r = .ok (validRowJson L r) := by
  unfold rowCheckE validRowJson
  rw [if_neg (by simp [hr])]
  cases hid : jsTruthy (r.getField "id") with
  | false => simp
  | true =>
    simp only [Bool.not_true, Bool.false_eq_true, if_false, Bool.true_and]
    cases hc : jsIsArray (r.getField "cells") with
    | none => simp
    | some cl =>
      rw [hc] at hcells
      simp only at hcells
      by_cases hlen : cl.length = L
      · simp [hlen, cellsLoopE_eq cl hcells]
      · simp [hlen]

theorem rowsLoopE_eq (L : Nat) (rs : List Json)
    (h : rs.all (fun r => !r.isNull &&
        (match jsIsArray (r.getField "cells") with
          | some cl => cl.all (fun c => !c.isNull)
          | none => true)) = true) :
    rowsLoopE L rs = .ok (rs.all (validRowJson L)) := by
  induction rs with
  | nil => rfl
  | cons r rs ih =>
    rw [List.all_cons, Bool.and_eq_true] at h
    obtain ⟨h1, h2⟩ := h
    rw [Bool.and_eq_true] at h1
    have hr : r.isNull = false := by simpa using h1.1
    rw [List.all_cons]
    unfold rowsLoopE
    rw [rowCheckE_eq L r hr h1.2]
    cases hv : validRowJson L r with
    | false => simp
    | true => simp [ih h2]

theorem colsLoopE_eq (cs : List Json) (h : cs.all (fun c => !c.isNull) = true) :
    colsLoopE cs = .ok (cs.all validColumnJson) := by
  induction cs with
  | nil => rfl
  | cons c cs ih =>
    rw [List.all_cons, Bool.and_eq_true] at h
    have hc : c.isNull = false := by simpa using h.1
    rw [List.all_cons]
    by_cases hv : validColumnJson c
    · simp [colsLoopE, hc, hv, ih h.2]
    · simp [colsLoopE, hc, hv]

/-- On inputs with no null array elements `validateTableData` cannot
throw, and the exception-aware model agrees with the total one. -/
theorem validateTableDataE_eq_of_no_null (j : Json) (h : jsonNoNullElements j = true) :
    validateTableDataE j = .ok (validateTableData j) := by
  unfold jsonNoNullElements at h
  rw [Bool.and_eq_true] at h
  obtain ⟨hrows, hcols⟩ := h
  unfold validateTableDataE validateTableData
  cases htop : (jsTruthy (some j) && jsTypeofObject j && jsTruthy (j.getField "version")) with
  | false => simp
  | true =>
    simp only [Bool.not_true, Bool.false_eq_true, if_false, Bool.true_and]
    revert hrows hcols
    cases hr : jsIsArray (j.getField "rows") with
    | none =>
      cases hc : jsIsArray (j.getField "columns") with
      | none => intro _ _; simp
      | some cs => intro _ _; simp
    | some rs =>
      cases hc : jsIsArray (j.getField "columns") with
      | none => intro _ _; simp
      | some cs =>
        intro hrows hcols
        simp only at hrows hcols
        dsimp only
        rw [rowsLoopE_eq cs.length rs hrows]
        cases hall : rs.all (validRowJson cs.length) with
        | false => simp
        | true => simp [colsLoopE_eq cs hcols]

/-- C4 counterexample: the untyped value of the valid JSON text
`{"version":"1.0","rows":[null],"columns":[]}` falls under the claim's
conditions (its one row carries no `id`), yet the source
`validateTableData` does not return false there: the access `row.id`
on the `null` row throws a `TypeError` (which `parseTableData` turns
into `null`; a direct caller sees the exception), refuting the claim
as stated. -/
theorem validate_null_row_counterexample :
    MalformedTable nullRowDoc ∧ validateTableDataE nullRowDoc = .error () :=
  ⟨Or.inr (Or.inr (Or.inr (Or.inr (Or.inl
      ⟨[Json.null], rfl, Json.null, List.mem_singleton.mpr rfl, Or.inl rfl⟩)))),
    rfl⟩

/-- C4 (amended): `validateTableData` returns false whenever its
argument is null or not an object, or its `version` is falsy, or
`rows` or `columns` is not an array, or some row lacks an `id` or has
a `cells` field that is not an array, or some row's cell count differs
from `columns.length`, or some cell lacks an `id` or has non-string
`content`, or some column lacks an `id` — provided no element of
`rows`, of a row's `cells`, or of `columns` is the literal `null`; on
a null element the validator instead throws a `TypeError` (see the
counterexample). -/
theorem validateTableData_rejects_malformed (j : Json) (h : MalformedTable j)
    (hnn : jsonNoNullElements j = true) :
    validateTableDataE j = Except.ok false := by
  rw [validateTableDataE_eq_of_no_null j hnn,
    validateTableData_false_of_malformed j h]

/-- Witness for C4: the null value (malformed, and without null array
elements since it has no arrays at all). -/
theorem validateTableData_rejects_malformed_witness :
    (MalformedTable Json.null ∧ jsonNoNullElements Json.null = true) ∧
      validateTableDataE Json.null = Except.ok false :=
  ⟨⟨Or.inl (Or.inl rfl), rfl⟩,
    validateTableData_rejects_malformed Json.null (Or.inl (Or.inl rfl)) rfl⟩

end GridComposer
